import Mathlib

/-!
Shallow embedding of src/tools/verify_connectivity.py.

The script shells out to kubectl and az; we model each external command
response as explicit input data.  Printing is modelled, where a claim needs
it, by returning the relevant summary data; the sequence of external
commands a check issues is modelled by a trace of CmdEvent values.
Python str.strip and str.lower are modelled by pyStrip and pyLower;
json.loads is modelled by an Option-valued parse result supplied in the
environment; a Python KeyError is modelled by Except.error.
-/

/-- Result of running one external command: stdout, stderr, return code. -/
structure CmdResult where
  stdout : String
  stderr : String
  rc : Int
deriving DecidableEq, Repr

/-- External commands the script can issue, used as an execution trace. -/
inductive CmdEvent where
  | phaseQuery : CmdEvent
  | httpProbe : CmdEvent
  | svcList : String → CmdEvent
  | nsgList : String → CmdEvent
deriving DecidableEq, Repr

/-- Model of Python str.strip (leading and trailing whitespace removed). -/
def pyStrip (s : String) : String :=
  String.mk (((s.toList.dropWhile Char.isWhitespace).reverse.dropWhile
    Char.isWhitespace).reverse)

/-- Model of Python str.lower. -/
def pyLower (s : String) : String :=
  String.mk (s.toList.map Char.toLower)

/-- Model of the Python substring test needle in hay. -/
def strContains (hay needle : String) : Bool :=
  hay.toList.tails.any (fun t => needle.toList.isPrefixOf t)

/-- Responses to the two commands test_intended_connectivity issues:
the pod phase query and the curl probe executed in the pod. -/
structure ConnEnv where
  phaseRes : CmdResult
  probeRes : CmdResult
deriving DecidableEq, Repr

/-- Embedding of test_intended_connectivity.  Returns the boolean result
together with the trace of commands actually issued. -/
def test_intended_connectivity (env : ConnEnv) : Bool × List CmdEvent :=
  let phase := pyStrip env.phaseRes.stdout
  if env.phaseRes.rc ≠ 0 ∨ phase ≠ "Running" then
    (false, [CmdEvent.phaseQuery])
  else
    let body := pyStrip env.probeRes.stdout
    if env.probeRes.rc = 0 ∧ strContains body "OK-C2" = true then
      (true, [CmdEvent.phaseQuery, CmdEvent.httpProbe])
    else
      (false, [CmdEvent.phaseQuery, CmdEvent.httpProbe])

/-- One ingress entry of a service status, field ip optional. -/
structure IngJson where
  ip : Option String
deriving DecidableEq, Repr

/-- Service metadata; indexing an absent field raises in Python, so the
fields are optional here and access is modelled with Except. -/
structure MetaJson where
  name : Option String
  nspace : Option String
deriving DecidableEq, Repr

/-- The loadBalancer object of a service status; an absent or null ingress
list both behave as the empty list in the source (get default plus or-else). -/
structure LBJson where
  ingress : Option (List IngJson)
deriving DecidableEq, Repr

/-- The status object of a service. -/
structure StatusJson where
  loadBalancer : Option LBJson
deriving DecidableEq, Repr

/-- The spec object of a service, type field optional. -/
structure SpecJson where
  type : Option String
deriving DecidableEq, Repr

/-- One item of the services listing. -/
structure SvcItem where
  spec : Option SpecJson
  status : Option StatusJson
  metadata : Option MetaJson
deriving DecidableEq, Repr

/-- Parsed output of kubectl get svc -A -o json. -/
structure ServicesJson where
  items : Option (List SvcItem)
deriving DecidableEq, Repr

/-- A discovered public endpoint record, as built by the source. -/
structure PubSvc where
  name : String
  nspace : String
  ip : String
deriving DecidableEq, Repr

/-- Response to the service-listing command for one cluster: return code,
stderr, and the result of json.loads on stdout (none models a parse error). -/
structure SvcListResp where
  parsed : Option ServicesJson
  stderr : String
  rc : Int
deriving DecidableEq, Repr

/-- Python truthiness of ing.get of ip: some nonempty string. -/
def truthyIp (ing : IngJson) : Option String :=
  match ing.ip with
  | none => none
  | some s => if s = "" then none else some s

/-- Building one record accesses metadata, name and namespace by direct
indexing in the source, which raises KeyError when absent. -/
def mkRecord (svc : SvcItem) (ip : String) : Except String PubSvc :=
  match svc.metadata with
  | none => Except.error "KeyError: metadata"
  | some m =>
    match m.name with
    | none => Except.error "KeyError: name"
    | some n =>
      match m.nspace with
      | none => Except.error "KeyError: namespace"
      | some ns => Except.ok { name := n, nspace := ns, ip := ip }

/-- The effective ingress list of a service item: absent spec, status,
loadBalancer or ingress all default to the empty list, as in the source. -/
def svcIngress (svc : SvcItem) : List IngJson :=
  (((svc.status.getD { loadBalancer := none }).loadBalancer.getD
    { ingress := none }).ingress).getD []

/-- The inner loop of list_public_loadbalancers over the ingress entries of
one service, appending one record per truthy ip. -/
def processIngs (svc : SvcItem) (acc : List PubSvc) :
    List IngJson → Except String (List PubSvc)
  | [] => Except.ok acc
  | ing :: rest =>
    match truthyIp ing with
    | none => processIngs svc acc rest
    | some ip =>
      match mkRecord svc ip with
      | Except.error e => Except.error e
      | Except.ok r => processIngs svc (acc ++ [r]) rest

/-- Processing of one service item: skip unless spec type is LoadBalancer,
then walk the ingress entries. -/
def processItem (svc : SvcItem) (acc : List PubSvc) : Except String (List PubSvc) :=
  if (svc.spec.getD { type := none }).type ≠ some "LoadBalancer" then
    Except.ok acc
  else
    processIngs svc acc (svcIngress svc)

/-- The outer loop of list_public_loadbalancers over all service items. -/
def processItems (acc : List PubSvc) : List SvcItem → Except String (List PubSvc)
  | [] => Except.ok acc
  | svc :: rest =>
    match processItem svc acc with
    | Except.error e => Except.error e
    | Except.ok acc2 => processItems acc2 rest

/-- Embedding of list_public_loadbalancers: a failed or unparseable listing
yields the empty list, otherwise the items are scanned in order. -/
def list_public_loadbalancers (resp : SvcListResp) : Except String (List PubSvc) :=
  if resp.rc ≠ 0 then Except.ok []
  else
    match resp.parsed with
    | none => Except.ok []
    | some services => processItems [] (services.items.getD [])

/-- Allow-list keywords of test_public_exposure. -/
def allowed_keywords : List String := ["frontend", "c2-validation"]

/-- A record is critical when its lowercased name contains none of the
allow-list keywords. -/
def isCritical (s : PubSvc) : Bool :=
  ! (allowed_keywords.any (fun kw => strContains (pyLower s.name) kw))

/-- Listing responses for the two clusters, in scan order C1 then C2. -/
structure ExposureEnv where
  c1 : SvcListResp
  c2 : SvcListResp
deriving DecidableEq, Repr

/-- Embedding of test_public_exposure.  The two loop iterations of the
source are unrolled; an early return False happens inside an iteration, so
the later listing command is then not issued.  The trace records which
listing commands ran. -/
def test_public_exposure (env : ExposureEnv) : Except String (Bool × List CmdEvent) :=
  match list_public_loadbalancers env.c1 with
  | Except.error e => Except.error e
  | Except.ok p1 =>
    if p1 ≠ [] ∧ p1.filter isCritical ≠ [] then
      Except.ok (false, [CmdEvent.svcList "C1"])
    else
      match list_public_loadbalancers env.c2 with
      | Except.error e => Except.error e
      | Except.ok p2 =>
        if p2 ≠ [] ∧ p2.filter isCritical ≠ [] then
          Except.ok (false, [CmdEvent.svcList "C1", CmdEvent.svcList "C2"])
        else
          Except.ok (true, [CmdEvent.svcList "C1", CmdEvent.svcList "C2"])

/-- One security rule of an NSG, access field optional. -/
structure NsgRule where
  access : Option String
deriving DecidableEq, Repr

/-- One NSG of the listing; name and securityRules are read with defaults. -/
structure Nsg where
  name : Option String
  securityRules : Option (List NsgRule)
deriving DecidableEq, Repr

/-- Response to the az network nsg list command for one resource group:
return code, stderr, and the json.loads result (none models a parse error). -/
structure NsgListResp where
  parsed : Option (List Nsg)
  stderr : String
  rc : Int
deriving DecidableEq, Repr

/-- The rules of one NSG, defaulting to the empty list. -/
def nsg_rules (nsg : Nsg) : List NsgRule := nsg.securityRules.getD []

/-- Rules whose access field equals Allow, as filtered by the source. -/
def allow_rules (nsg : Nsg) : List NsgRule :=
  (nsg_rules nsg).filter (fun r => decide (r.access = some "Allow"))

/-- Rules whose access field equals Deny, as filtered by the source. -/
def deny_rules (nsg : Nsg) : List NsgRule :=
  (nsg_rules nsg).filter (fun r => decide (r.access = some "Deny"))

/-- One printed summary line: cluster label, NSG name, allow count, deny count. -/
abbrev NsgSummary := String × String × Nat × Nat

/-- The summary lines printed for a list of NSGs of one cluster. -/
def nsgSummary (cluster : String) (nsgs : List Nsg) : List NsgSummary :=
  nsgs.map (fun nsg =>
    (cluster, nsg.name.getD "<unknown>", (allow_rules nsg).length,
      (deny_rules nsg).length))

/-- One iteration of the loop in test_network_isolation: the ok flag this
cluster contributes and the summary lines it prints. -/
def isoCluster (resp : NsgListResp) (cluster : String) : Bool × List NsgSummary :=
  if resp.rc ≠ 0 then (false, [])
  else
    match resp.parsed with
    | none => (false, [])
    | some nsgs =>
      if nsgs = [] then (true, [])
      else (true, nsgSummary cluster nsgs)

/-- Listing responses for the two resource groups, in scan order C1 then C2. -/
structure IsoEnv where
  c1 : NsgListResp
  c2 : NsgListResp
deriving DecidableEq, Repr

/-- Embedding of test_network_isolation.  Both clusters are always scanned
(the loop uses continue, never return); the result is the conjunction of the
per-cluster ok flags, and the summaries and command trace are returned too. -/
def test_network_isolation (env : IsoEnv) : Bool × List NsgSummary × List CmdEvent :=
  let r1 := isoCluster env.c1 "C1"
  let r2 := isoCluster env.c2 "C2"
  (r1.1 && r2.1, r1.2 ++ r2.2,
    [CmdEvent.nsgList "rg-c1-eastus", CmdEvent.nsgList "rg-c2-westus"])

/-- The whole external environment of one run. -/
structure VerifEnv where
  conn : ConnEnv
  expo : ExposureEnv
  iso : IsoEnv
deriving DecidableEq, Repr

/-- Embedding of verify_all: runs the three tests in order, builds the
results mapping (an ordered association list, as a Python dict literal
evaluates its values in order), and computes the printed overall verdict
as all of the values.  The second component models the printed overall
pass indicator; the third is the full command trace. -/
def verify_all (env : VerifEnv) :
    Except String (List (String × Bool) × Bool × List CmdEvent) :=
  let t1 := test_intended_connectivity env.conn
  match test_public_exposure env.expo with
  | Except.error e => Except.error e
  | Except.ok t2 =>
    let t3 := test_network_isolation env.iso
    let results := [("intended_connectivity", t1.1), ("public_exposure", t2.1),
      ("network_isolation", t3.1)]
    Except.ok (results, results.all (fun p => p.2), t1.2 ++ t2.2 ++ t3.2.2)

/-- The record one ingress entry of a service yields, when any: the ip
must be truthy and the metadata indexing must succeed. -/
def entryRecord (svc : SvcItem) (ing : IngJson) : Option PubSvc :=
  match truthyIp ing, svc.metadata with
  | some ip, some m =>
    match m.name, m.nspace with
    | some n, some ns => some { name := n, nspace := ns, ip := ip }
    | _, _ => none
  | _, _ => none

/-- Declarative characterization of the records one service item yields:
one per truthy-ip ingress entry of a LoadBalancer-type service. -/
def recordsOf (svc : SvcItem) : List PubSvc :=
  if (svc.spec.getD { type := none }).type = some "LoadBalancer" then
    (svcIngress svc).filterMap (entryRecord svc)
  else []

/-- The metadata of the item carries both a name and a namespace, so that
the direct indexing in the source cannot raise. -/
def metaComplete (svc : SvcItem) : Prop :=
  ∃ m n ns, svc.metadata = some m ∧ m.name = some n ∧ m.nspace = some ns

/-- The missing-structure cases listed for the safety claim: any of them
makes the item contribute nothing. -/
def itemDeficient (svc : SvcItem) : Prop :=
  svc.spec = none ∨
  (svc.spec.getD { type := none }).type ≠ some "LoadBalancer" ∨
  svc.status = none ∨
  (svc.status.getD { loadBalancer := none }).loadBalancer = none ∨
  ((svc.status.getD { loadBalancer := none }).loadBalancer.getD
    { ingress := none }).ingress = none ∨
  (∀ ing ∈ svcIngress svc, truthyIp ing = none)

/-- An item that cannot raise: if it is of LoadBalancer type then either
no ingress entry is truthy or its metadata is complete. -/
def itemSafe (svc : SvcItem) : Prop :=
  (svc.spec.getD { type := none }).type = some "LoadBalancer" →
    ((∀ ing ∈ svcIngress svc, truthyIp ing = none) ∨ metaComplete svc)

example : pyStrip "  Running \n" = "Running" := by decide
example : strContains "xx OK-C2 yy" "OK-C2" = true := by decide
example : strContains "hello" "OK-C2" = false := by decide
example : pyLower "FrontEnd-SVC" = "frontend-svc" := by decide

/-! Concrete environments used by the witnesses. -/

/-- A phase query answering Pending. -/
def pendingConnEnv : ConnEnv :=
  { phaseRes := { stdout := "Pending", stderr := "", rc := 0 },
    probeRes := { stdout := "", stderr := "", rc := 0 } }

/-- A fully healthy connectivity environment. -/
def okConnEnv : ConnEnv :=
  { phaseRes := { stdout := "Running", stderr := "", rc := 0 },
    probeRes := { stdout := "OK-C2 from C2", stderr := "", rc := 0 } }

/-- A service listing that succeeds with no items. -/
def emptySvcResp : SvcListResp :=
  { parsed := some { items := some [] }, stderr := "", rc := 0 }

/-- One NSG holding two Allow rules and one Deny rule. -/
def nsg1 : Nsg :=
  { name := some "nsg1",
    securityRules := some [{ access := some "Allow" }, { access := some "Deny" },
      { access := some "Allow" }] }

/-- An NSG listing that succeeds with one NSG holding three rules. -/
def okNsgResp : NsgListResp :=
  { parsed := some [nsg1], stderr := "", rc := 0 }

/-- A run environment in which every external command succeeds. -/
def okEnv : VerifEnv :=
  { conn := okConnEnv,
    expo := { c1 := emptySvcResp, c2 := emptySvcResp },
    iso := { c1 := okNsgResp, c2 := okNsgResp } }

/-- A non-allow-listed LoadBalancer service item with one external ip. -/
def adminSvcItem : SvcItem :=
  { spec := some { type := some "LoadBalancer" },
    status := some { loadBalancer := some { ingress := some [{ ip := some "5.6.7.8" }] } },
    metadata := some { name := some "admin-svc", nspace := some "default" } }

/-- A service listing returning exactly the admin-svc endpoint. -/
def adminSvcResp : SvcListResp :=
  { parsed := some { items := some [adminSvcItem] }, stderr := "", rc := 0 }

/-- The record the admin-svc item flattens to. -/
def adminRec : PubSvc := { name := "admin-svc", nspace := "default", ip := "5.6.7.8" }

/-- A listing command that failed outright. -/
def failedSvcResp : SvcListResp := { parsed := none, stderr := "timeout", rc := 1 }

/-- A frontend LoadBalancer service item, allow-listed by name. -/
def frontendSvcItem : SvcItem :=
  { spec := some { type := some "LoadBalancer" },
    status := some { loadBalancer := some { ingress := some [{ ip := some "1.2.3.4" }] } },
    metadata := some { name := some "frontend-svc", nspace := some "default" } }

/-- A service listing returning exactly the frontend endpoint. -/
def frontendSvcResp : SvcListResp :=
  { parsed := some { items := some [frontendSvcItem] }, stderr := "", rc := 0 }

/-- The record the frontend item flattens to. -/
def frontendRec : PubSvc :=
  { name := "frontend-svc", nspace := "default", ip := "1.2.3.4" }

/-- A LoadBalancer item with no status object at all. -/
def statuslessItem : SvcItem :=
  { spec := some { type := some "LoadBalancer" }, status := none,
    metadata := none }

/-- A retrieval failure: non-zero exit or unparseable stdout. -/
def listFail (resp : SvcListResp) : Prop := resp.rc ≠ 0 ∨ resp.parsed = none

instance (resp : SvcListResp) : Decidable (listFail resp) := by
  unfold listFail
  infer_instance

/-- C3: when the phase query has a non-zero exit code or a stripped phase
other than Running, the connectivity test returns false and its command
trace contains only the phase query, never the HTTP probe. -/
theorem connectivity_gate_blocks_probe (env : ConnEnv)
    (h : env.phaseRes.rc ≠ 0 ∨ pyStrip env.phaseRes.stdout ≠ "Running") :
    test_intended_connectivity env = (false, [CmdEvent.phaseQuery]) := by
  unfold test_intended_connectivity
  rw [if_pos h]

/-- Witness for C3 at the Pending-phase environment. -/
theorem connectivity_gate_blocks_probe_witness :
    test_intended_connectivity pendingConnEnv = (false, [CmdEvent.phaseQuery]) :=
  connectivity_gate_blocks_probe pendingConnEnv (by decide)

/-- C4: once the precondition gate passes, the connectivity test returns
true exactly when the probe exits 0 and its stripped body contains OK-C2. -/
theorem connectivity_probe_iff (env : ConnEnv)
    (h1 : env.phaseRes.rc = 0) (h2 : pyStrip env.phaseRes.stdout = "Running") :
    (test_intended_connectivity env).1 = true ↔
      (env.probeRes.rc = 0 ∧
        strContains (pyStrip env.probeRes.stdout) "OK-C2" = true) := by
  unfold test_intended_connectivity
  rw [if_neg (by simp [h1, h2])]
  by_cases h : env.probeRes.rc = 0 ∧
      strContains (pyStrip env.probeRes.stdout) "OK-C2" = true
  · simp [h]
  · simp [h]

/-- Witness for C4 at the healthy environment. -/
theorem connectivity_probe_iff_witness :
    (test_intended_connectivity okConnEnv).1 = true ↔
      (okConnEnv.probeRes.rc = 0 ∧
        strContains (pyStrip okConnEnv.probeRes.stdout) "OK-C2" = true) :=
  connectivity_probe_iff okConnEnv (by decide) (by decide)

/-- The connectivity test always issues the phase query. -/
lemma phaseQuery_mem_conn_trace (env : ConnEnv) :
    CmdEvent.phaseQuery ∈ (test_intended_connectivity env).2 := by
  unfold test_intended_connectivity
  by_cases h : env.phaseRes.rc ≠ 0 ∨ pyStrip env.phaseRes.stdout ≠ "Running"
  · simp [h]
  · by_cases h2 : env.probeRes.rc = 0 ∧
        strContains (pyStrip env.probeRes.stdout) "OK-C2" = true
    · simp [h, h2]
    · simp [h, h2]

/-- Whenever the exposure test returns, it has listed the first cluster. -/
lemma svcList_c1_mem_expo_trace (env : ExposureEnv) (b : Bool) (tr : List CmdEvent)
    (h : test_public_exposure env = Except.ok (b, tr)) :
    CmdEvent.svcList "C1" ∈ tr := by
  unfold test_public_exposure at h
  cases hl1 : list_public_loadbalancers env.c1 with
  | error e => rw [hl1] at h; exact absurd h (by simp)
  | ok p1 =>
    rw [hl1] at h
    dsimp only at h
    by_cases hc1 : p1 ≠ [] ∧ p1.filter isCritical ≠ []
    · rw [if_pos hc1] at h
      simp only [Except.ok.injEq, Prod.mk.injEq] at h
      rw [← h.2]
      simp
    · rw [if_neg hc1] at h
      cases hl2 : list_public_loadbalancers env.c2 with
      | error e => rw [hl2] at h; exact absurd h (by simp)
      | ok p2 =>
        rw [hl2] at h
        dsimp only at h
        by_cases hc2 : p2 ≠ [] ∧ p2.filter isCritical ≠ []
        · rw [if_pos hc2] at h
          simp only [Except.ok.injEq, Prod.mk.injEq] at h
          rw [← h.2]
          simp
        · rw [if_neg hc2] at h
          simp only [Except.ok.injEq, Prod.mk.injEq] at h
          rw [← h.2]
          simp

/-- C1: whenever verify_all completes, the report lists exactly the three
checks in order with their individual results, the printed overall verdict
is the conjunction of exactly those three booleans, and the command trace
is the connectivity trace, then the exposure trace, then the isolation
trace, each check having issued at least one command. -/
theorem verify_all_order_and_overall (env : VerifEnv)
    (results : List (String × Bool)) (allp : Bool) (tr : List CmdEvent)
    (b2 : Bool) (tr2 : List CmdEvent)
    (hexpo : test_public_exposure env.expo = Except.ok (b2, tr2))
    (h : verify_all env = Except.ok (results, allp, tr)) :
    results = [("intended_connectivity", (test_intended_connectivity env.conn).1),
        ("public_exposure", b2),
        ("network_isolation", (test_network_isolation env.iso).1)] ∧
    allp = ((test_intended_connectivity env.conn).1 &&
        (b2 && (test_network_isolation env.iso).1)) ∧
    tr = (test_intended_connectivity env.conn).2 ++ tr2 ++
        (test_network_isolation env.iso).2.2 ∧
    CmdEvent.phaseQuery ∈ tr ∧ CmdEvent.svcList "C1" ∈ tr ∧
    CmdEvent.nsgList "rg-c1-eastus" ∈ tr ∧ CmdEvent.nsgList "rg-c2-westus" ∈ tr := by
  unfold verify_all at h
  rw [hexpo] at h
  simp only [Except.ok.injEq, Prod.mk.injEq] at h
  obtain ⟨hres, hall, htr⟩ := h
  refine ⟨hres.symm, ?_, htr.symm, ?_, ?_, ?_, ?_⟩
  · rw [← hall]
    simp
  · rw [← htr]
    exact List.mem_append_left _ (List.mem_append_left _
      (phaseQuery_mem_conn_trace env.conn))
  · rw [← htr]
    exact List.mem_append_left _ (List.mem_append_right _
      (svcList_c1_mem_expo_trace env.expo b2 tr2 hexpo))
  · rw [← htr]
    refine List.mem_append_right _ ?_
    unfold test_network_isolation
    simp
  · rw [← htr]
    refine List.mem_append_right _ ?_
    unfold test_network_isolation
    simp

/-- Witness for C1 at the all-success environment. -/
theorem verify_all_order_and_overall_witness :
    ([("intended_connectivity", true), ("public_exposure", true),
        ("network_isolation", true)] : List (String × Bool)) =
      [("intended_connectivity", (test_intended_connectivity okEnv.conn).1),
        ("public_exposure", true),
        ("network_isolation", (test_network_isolation okEnv.iso).1)] ∧
    true = ((test_intended_connectivity okEnv.conn).1 &&
        (true && (test_network_isolation okEnv.iso).1)) ∧
    ([CmdEvent.phaseQuery, CmdEvent.httpProbe, CmdEvent.svcList "C1",
        CmdEvent.svcList "C2", CmdEvent.nsgList "rg-c1-eastus",
        CmdEvent.nsgList "rg-c2-westus"] : List CmdEvent) =
      (test_intended_connectivity okEnv.conn).2 ++
        [CmdEvent.svcList "C1", CmdEvent.svcList "C2"] ++
        (test_network_isolation okEnv.iso).2.2 ∧
    CmdEvent.phaseQuery ∈ ([CmdEvent.phaseQuery, CmdEvent.httpProbe,
        CmdEvent.svcList "C1", CmdEvent.svcList "C2",
        CmdEvent.nsgList "rg-c1-eastus", CmdEvent.nsgList "rg-c2-westus"] :
          List CmdEvent) ∧
    CmdEvent.svcList "C1" ∈ ([CmdEvent.phaseQuery, CmdEvent.httpProbe,
        CmdEvent.svcList "C1", CmdEvent.svcList "C2",
        CmdEvent.nsgList "rg-c1-eastus", CmdEvent.nsgList "rg-c2-westus"] :
          List CmdEvent) ∧
    CmdEvent.nsgList "rg-c1-eastus" ∈ ([CmdEvent.phaseQuery, CmdEvent.httpProbe,
        CmdEvent.svcList "C1", CmdEvent.svcList "C2",
        CmdEvent.nsgList "rg-c1-eastus", CmdEvent.nsgList "rg-c2-westus"] :
          List CmdEvent) ∧
    CmdEvent.nsgList "rg-c2-westus" ∈ ([CmdEvent.phaseQuery, CmdEvent.httpProbe,
        CmdEvent.svcList "C1", CmdEvent.svcList "C2",
        CmdEvent.nsgList "rg-c1-eastus", CmdEvent.nsgList "rg-c2-westus"] :
          List CmdEvent) :=
  verify_all_order_and_overall okEnv _ true _ true
    [CmdEvent.svcList "C1", CmdEvent.svcList "C2"] rfl rfl

/-- C2: whenever verify_all completes, the report holds exactly the three
named results, in order, whatever the individual outcomes were. -/
theorem verify_all_three_keys (env : VerifEnv)
    (results : List (String × Bool)) (allp : Bool) (tr : List CmdEvent)
    (h : verify_all env = Except.ok (results, allp, tr)) :
    results.map Prod.fst =
      ["intended_connectivity", "public_exposure", "network_isolation"] := by
  unfold verify_all at h
  split at h
  · exact absurd h (by simp)
  · simp only [Except.ok.injEq, Prod.mk.injEq] at h
    rw [← h.1]
    simp

/-- Witness for C2: a failing run still reports the three keys. -/
theorem verify_all_three_keys_witness :
    ([("intended_connectivity", false), ("public_exposure", true),
        ("network_isolation", true)] : List (String × Bool)).map Prod.fst =
      ["intended_connectivity", "public_exposure", "network_isolation"] :=
  verify_all_three_keys
    { conn := pendingConnEnv, expo := { c1 := emptySvcResp, c2 := emptySvcResp },
      iso := { c1 := okNsgResp, c2 := okNsgResp } }
    _ false
    [CmdEvent.phaseQuery, CmdEvent.svcList "C1", CmdEvent.svcList "C2",
      CmdEvent.nsgList "rg-c1-eastus", CmdEvent.nsgList "rg-c2-westus"]
    rfl

/-- A failed or unparseable listing yields the empty endpoint list. -/
lemma list_fail_empty (resp : SvcListResp) (h : listFail resp) :
    list_public_loadbalancers resp = Except.ok [] := by
  unfold list_public_loadbalancers
  rcases h with h | h
  · rw [if_pos h]
  · by_cases hrc : resp.rc ≠ 0
    · rw [if_pos hrc]
    · rw [if_neg hrc, h]

/-- C5: when both listings parse, the exposure test returns false exactly
when some discovered endpoint of either cluster has a name containing no
allow-list keyword; with no public endpoints at all it returns true. -/
theorem exposure_false_iff (env : ExposureEnv) (p1 p2 : List PubSvc)
    (h1 : list_public_loadbalancers env.c1 = Except.ok p1)
    (h2 : list_public_loadbalancers env.c2 = Except.ok p2) :
    ∃ b tr, test_public_exposure env = Except.ok (b, tr) ∧
      (b = false ↔ ∃ s ∈ p1 ++ p2, isCritical s = true) ∧
      (p1 = [] → p2 = [] → b = true) := by
  unfold test_public_exposure
  rw [h1]
  dsimp only
  by_cases hc1 : p1 ≠ [] ∧ p1.filter isCritical ≠ []
  · rw [if_pos hc1]
    refine ⟨false, _, rfl, ⟨fun _ => ?_, fun _ => rfl⟩, fun hp1 _ => absurd hp1 hc1.1⟩
    obtain ⟨s, hs⟩ := List.exists_mem_of_ne_nil _ hc1.2
    exact ⟨s, List.mem_append_left _ (List.mem_of_mem_filter hs),
      (List.mem_filter.mp hs).2⟩
  · rw [if_neg hc1]
    rw [h2]
    dsimp only
    have hno1 : ∀ s ∈ p1, ¬isCritical s = true := by
      intro s hs
      by_cases hp1 : p1 = []
      · subst hp1; simp at hs
      · have : p1.filter isCritical = [] := by
          by_contra hne
          exact hc1 ⟨hp1, hne⟩
        exact List.filter_eq_nil_iff.mp this s hs
    by_cases hc2 : p2 ≠ [] ∧ p2.filter isCritical ≠ []
    · rw [if_pos hc2]
      refine ⟨false, _, rfl, ⟨fun _ => ?_, fun _ => rfl⟩,
        fun _ hp2 => absurd hp2 hc2.1⟩
      obtain ⟨s, hs⟩ := List.exists_mem_of_ne_nil _ hc2.2
      exact ⟨s, List.mem_append_right _ (List.mem_of_mem_filter hs),
        (List.mem_filter.mp hs).2⟩
    · rw [if_neg hc2]
      have hno2 : ∀ s ∈ p2, ¬isCritical s = true := by
        intro s hs
        by_cases hp2 : p2 = []
        · subst hp2; simp at hs
        · have : p2.filter isCritical = [] := by
            by_contra hne
            exact hc2 ⟨hp2, hne⟩
          exact List.filter_eq_nil_iff.mp this s hs
      refine ⟨true, _, rfl, ⟨fun hb => absurd hb (by simp), fun hex => ?_⟩,
        fun _ _ => rfl⟩
      obtain ⟨s, hmem, hcrit⟩ := hex
      rcases List.mem_append.mp hmem with hm | hm
      · exact absurd hcrit (hno1 s hm)
      · exact absurd hcrit (hno2 s hm)

/-- Witness for C5 at one non-allow-listed endpoint in the second cluster. -/
theorem exposure_false_iff_witness :
    ∃ b tr, test_public_exposure { c1 := emptySvcResp, c2 := adminSvcResp } =
        Except.ok (b, tr) ∧
      (b = false ↔ ∃ s ∈ ([] : List PubSvc) ++ [adminRec], isCritical s = true) ∧
      (([] : List PubSvc) = [] → [adminRec] = [] → b = true) :=
  exposure_false_iff { c1 := emptySvcResp, c2 := adminSvcResp } [] [adminRec]
    rfl rfl

/-- C6: a retrieval failure on one cluster together with no violation on
the other leaves the exposure test passing. -/
theorem exposure_retrieval_failure_nonfatal (env : ExposureEnv) (p : List PubSvc)
    (h : (listFail env.c1 ∧ list_public_loadbalancers env.c2 = Except.ok p ∧
            p.filter isCritical = []) ∨
         (listFail env.c2 ∧ list_public_loadbalancers env.c1 = Except.ok p ∧
            p.filter isCritical = [])) :
    ∃ tr, test_public_exposure env = Except.ok (true, tr) := by
  unfold test_public_exposure
  rcases h with ⟨hf, hok, hcrit⟩ | ⟨hf, hok, hcrit⟩
  · rw [list_fail_empty env.c1 hf]
    dsimp only
    rw [if_neg (by simp)]
    rw [hok]
    dsimp only
    rw [if_neg (by simp [hcrit])]
    exact ⟨_, rfl⟩
  · rw [hok]
    dsimp only
    rw [if_neg (by simp [hcrit])]
    rw [list_fail_empty env.c2 hf]
    dsimp only
    rw [if_neg (by simp)]
    exact ⟨_, rfl⟩

/-- Witness for C6: the first listing fails, the second is clean. -/
theorem exposure_retrieval_failure_nonfatal_witness :
    ∃ tr, test_public_exposure { c1 := failedSvcResp, c2 := frontendSvcResp } =
      Except.ok (true, tr) :=
  exposure_retrieval_failure_nonfatal
    { c1 := failedSvcResp, c2 := frontendSvcResp } [frontendRec]
    (Or.inl ⟨by decide, rfl, by decide⟩)

/-- C7 counterexample: with a non-allow-listed endpoint in the first
cluster, the method returns false with a trace listing only the first
cluster: the second listing command was never issued, contrary to the
claim that both clusters are still scanned. -/
theorem exposure_short_circuit_cex :
    test_public_exposure { c1 := adminSvcResp, c2 := frontendSvcResp } =
        Except.ok (false, [CmdEvent.svcList "C1"]) ∧
    CmdEvent.svcList "C2" ∉ [CmdEvent.svcList "C1"] :=
  ⟨rfl, by decide⟩

/-- C7 amended: when the first cluster yields a non-allow-listed public
endpoint, the exposure test returns false immediately and the second
cluster is not listed (its listing command is absent from the trace). -/
theorem exposure_c1_violation_short_circuits (env : ExposureEnv)
    (p1 : List PubSvc)
    (h1 : list_public_loadbalancers env.c1 = Except.ok p1)
    (hc : p1.filter isCritical ≠ []) :
    test_public_exposure env = Except.ok (false, [CmdEvent.svcList "C1"]) ∧
    CmdEvent.svcList "C2" ∉ [CmdEvent.svcList "C1"] := by
  have hp1 : p1 ≠ [] := by
    intro he
    subst he
    simp at hc
  constructor
  · unfold test_public_exposure
    rw [h1]
    dsimp only
    rw [if_pos ⟨hp1, hc⟩]
  · decide

/-- Witness for the amended C7 at the concrete violating environment. -/
theorem exposure_c1_violation_short_circuits_witness :
    test_public_exposure { c1 := adminSvcResp, c2 := frontendSvcResp } =
        Except.ok (false, [CmdEvent.svcList "C1"]) ∧
    CmdEvent.svcList "C2" ∉ [CmdEvent.svcList "C1"] :=
  exposure_c1_violation_short_circuits
    { c1 := adminSvcResp, c2 := frontendSvcResp } [adminRec] rfl (by decide)

/-- Counting two pointwise exclusive predicates never exceeds the length. -/
lemma countP_disjoint_le_length {α : Type} (p q : α → Bool)
    (h : ∀ a, ¬(p a = true ∧ q a = true)) :
    ∀ l : List α, l.countP p + l.countP q ≤ l.length := by
  intro l
  induction l with
  | nil => simp
  | cons a t ih =>
    simp only [List.countP_cons, List.length_cons]
    by_cases hp : p a = true
    · have hq : ¬q a = true := fun hq => h a ⟨hp, hq⟩
      simp [hp, hq]
      omega
    · by_cases hq : q a = true
      · simp [hp, hq]
        omega
      · simp [hp, hq]
        omega

/-- Every summary line of one cluster comes from one NSG of its parsed
listing, carrying the lengths of the Allow and Deny filters. -/
lemma mem_isoCluster_summary (resp : NsgListResp) (cl : String) (e : NsgSummary)
    (he : e ∈ (isoCluster resp cl).2) :
    ∃ nsg ∈ resp.parsed.getD [],
      e = (cl, nsg.name.getD "<unknown>", (allow_rules nsg).length,
        (deny_rules nsg).length) := by
  unfold isoCluster at he
  by_cases hrc : resp.rc ≠ 0
  · rw [if_pos hrc] at he
    simp at he
  · rw [if_neg hrc] at he
    cases hp : resp.parsed with
    | none => rw [hp] at he; simp at he
    | some nsgs =>
      rw [hp] at he
      dsimp only at he
      by_cases hn : nsgs = []
      · rw [if_pos hn] at he; simp at he
      · rw [if_neg hn] at he
        unfold nsgSummary at he
        obtain ⟨nsg, hmem, heq⟩ := List.mem_map.mp he
        exact ⟨nsg, by simp [hp, hmem], heq.symm⟩

/-- C8: every allow/deny summary the isolation test reports counts exactly
the rules whose access field is Allow, respectively Deny, of one NSG of a
parsed listing; the two sets are disjoint and their sizes sum to at most
the total rule count of that NSG. -/
theorem isolation_counts_exact (env : IsoEnv) (e : NsgSummary)
    (he : e ∈ (test_network_isolation env).2.1) :
    ∃ nsg : Nsg,
      (nsg ∈ env.c1.parsed.getD [] ∨ nsg ∈ env.c2.parsed.getD []) ∧
      e.2.2.1 = (nsg_rules nsg).countP (fun r => decide (r.access = some "Allow")) ∧
      e.2.2.2 = (nsg_rules nsg).countP (fun r => decide (r.access = some "Deny")) ∧
      (∀ r ∈ allow_rules nsg, r ∉ deny_rules nsg) ∧
      e.2.2.1 + e.2.2.2 ≤ (nsg_rules nsg).length := by
  have hsplit : (test_network_isolation env).2.1 =
      (isoCluster env.c1 "C1").2 ++ (isoCluster env.c2 "C2").2 := rfl
  rw [hsplit] at he
  have hdisj : ∀ a : NsgRule, ¬((decide (a.access = some "Allow")) = true ∧
      (decide (a.access = some "Deny")) = true) := by
    intro a ⟨h1, h2⟩
    rw [decide_eq_true_iff] at h1 h2
    rw [h1] at h2
    exact absurd h2 (by decide)
  have main : ∀ nsg : Nsg,
      (allow_rules nsg).length =
        (nsg_rules nsg).countP (fun r => decide (r.access = some "Allow")) ∧
      (deny_rules nsg).length =
        (nsg_rules nsg).countP (fun r => decide (r.access = some "Deny")) ∧
      (∀ r ∈ allow_rules nsg, r ∉ deny_rules nsg) ∧
      (allow_rules nsg).length + (deny_rules nsg).length ≤
        (nsg_rules nsg).length := by
    intro nsg
    refine ⟨(List.countP_eq_length_filter _ _).symm,
      (List.countP_eq_length_filter _ _).symm, ?_, ?_⟩
    · intro r hr hd
      have h1 := (List.mem_filter.mp hr).2
      have h2 := (List.mem_filter.mp hd).2
      exact hdisj r ⟨h1, h2⟩
    · rw [allow_rules, deny_rules, ← List.countP_eq_length_filter,
        ← List.countP_eq_length_filter]
      exact countP_disjoint_le_length _ _ hdisj _
  rcases List.mem_append.mp he with hm | hm
  · obtain ⟨nsg, hmem, heq⟩ := mem_isoCluster_summary env.c1 "C1" e hm
    obtain ⟨ha, hd, hx, hs⟩ := main nsg
    exact ⟨nsg, Or.inl hmem, by rw [heq]; exact ha, by rw [heq]; exact hd, hx,
      by rw [heq]; exact hs⟩
  · obtain ⟨nsg, hmem, heq⟩ := mem_isoCluster_summary env.c2 "C2" e hm
    obtain ⟨ha, hd, hx, hs⟩ := main nsg
    exact ⟨nsg, Or.inr hmem, by rw [heq]; exact ha, by rw [heq]; exact hd, hx,
      by rw [heq]; exact hs⟩

/-- Witness for C8 at the concrete listing holding nsg1. -/
theorem isolation_counts_exact_witness :
    ∃ nsg : Nsg,
      (nsg ∈ ({ c1 := okNsgResp, c2 := okNsgResp } : IsoEnv).c1.parsed.getD [] ∨
        nsg ∈ ({ c1 := okNsgResp, c2 := okNsgResp } : IsoEnv).c2.parsed.getD []) ∧
      (("C1", "nsg1", 2, 1) : NsgSummary).2.2.1 =
        (nsg_rules nsg).countP (fun r => decide (r.access = some "Allow")) ∧
      (("C1", "nsg1", 2, 1) : NsgSummary).2.2.2 =
        (nsg_rules nsg).countP (fun r => decide (r.access = some "Deny")) ∧
      (∀ r ∈ allow_rules nsg, r ∉ deny_rules nsg) ∧
      (("C1", "nsg1", 2, 1) : NsgSummary).2.2.1 +
        (("C1", "nsg1", 2, 1) : NsgSummary).2.2.2 ≤ (nsg_rules nsg).length :=
  isolation_counts_exact { c1 := okNsgResp, c2 := okNsgResp }
    ("C1", "nsg1", 2, 1) (by decide)

/-- C9: the isolation test returns false exactly when some listing failed
or was unparseable; rule contents and empty NSG lists never matter. -/
theorem isolation_false_iff (env : IsoEnv) :
    ((test_network_isolation env).1 = false) ↔
      (env.c1.rc ≠ 0 ∨ env.c1.parsed = none ∨
        env.c2.rc ≠ 0 ∨ env.c2.parsed = none) := by
  unfold test_network_isolation isoCluster
  by_cases h1 : env.c1.rc ≠ 0 <;> by_cases h2 : env.c2.rc ≠ 0 <;>
    cases hp1 : env.c1.parsed <;> cases hp2 : env.c2.parsed <;>
      simp [h1, h2, hp1, hp2] <;> split <;> simp <;> split <;> simp

/-- Appending into the accumulator distributes over the inner ingress walk
once the metadata of the item is complete. -/
lemma processIngs_meta (svc : SvcItem) (m : MetaJson) (n ns : String)
    (hm : svc.metadata = some m) (hn : m.name = some n)
    (hns : m.nspace = some ns) :
    ∀ (ings : List IngJson) (acc : List PubSvc),
      processIngs svc acc ings =
        Except.ok (acc ++ ings.filterMap (entryRecord svc)) := by
  intro ings
  induction ings with
  | nil => intro acc; simp [processIngs]
  | cons ing rest ih =>
    intro acc
    unfold processIngs
    cases hti : truthyIp ing with
    | none =>
      rw [ih]
      simp [List.filterMap_cons, entryRecord, hti]
    | some ip =>
      unfold mkRecord
      simp only [hm, hn, hns]
      rw [ih]
      simp [List.filterMap_cons, entryRecord, hti, hm, hn, hns]

/-- An ingress walk over entries with no truthy ip appends nothing. -/
lemma processIngs_none (svc : SvcItem) :
    ∀ (ings : List IngJson), (∀ ing ∈ ings, truthyIp ing = none) →
      ∀ acc : List PubSvc, processIngs svc acc ings = Except.ok acc := by
  intro ings
  induction ings with
  | nil => intro _ acc; simp [processIngs]
  | cons ing rest ih =>
    intro hall acc
    unfold processIngs
    rw [hall ing (List.mem_cons_self ing rest)]
    exact ih (fun i hi => hall i (List.mem_cons_of_mem ing hi)) acc

/-- A safe item contributes exactly its declarative record list. -/
lemma processItem_safe (svc : SvcItem) (h : itemSafe svc) (acc : List PubSvc) :
    processItem svc acc = Except.ok (acc ++ recordsOf svc) := by
  unfold processItem recordsOf
  by_cases hlb : (svc.spec.getD { type := none }).type = some "LoadBalancer"
  · rw [if_neg (not_not_intro hlb), if_pos hlb]
    rcases h hlb with hnone | ⟨m, n, ns, hm, hn, hns⟩
    · rw [processIngs_none svc _ hnone]
      have : (svcIngress svc).filterMap (entryRecord svc) = [] := by
        rw [List.filterMap_eq_nil_iff]
        intro ing hing
        unfold entryRecord
        rw [hnone ing hing]
      rw [this, List.append_nil]
    · exact processIngs_meta svc m n ns hm hn hns _ acc
  · rw [if_pos hlb, if_neg hlb, List.append_nil]

/-- The outer walk over safe items flattens their record lists in order. -/
lemma processItems_safe :
    ∀ (items : List SvcItem) (acc : List PubSvc),
      (∀ svc ∈ items, itemSafe svc) →
      processItems acc items = Except.ok (acc ++ items.flatMap recordsOf) := by
  intro items
  induction items with
  | nil => intro acc _; simp [processItems]
  | cons svc rest ih =>
    intro acc hall
    unfold processItems
    rw [processItem_safe svc (hall svc (List.mem_cons_self svc rest)) acc]
    dsimp only
    rw [ih _ (fun s hs => hall s (List.mem_cons_of_mem svc hs))]
    simp [List.flatMap_cons, List.append_assoc]

/-- The length of a filterMap is the count of inputs that map to some. -/
lemma length_filterMap_eq_countP {α β : Type} (f : α → Option β) :
    ∀ l : List α, (l.filterMap f).length = l.countP (fun a => (f a).isSome) := by
  intro l
  induction l with
  | nil => simp
  | cons a t ih =>
    rw [List.filterMap_cons, List.countP_cons]
    cases hf : f a <;> simp [hf, ih]

/-- C10: list_public_loadbalancers is total over the listed missing
structure, every such deficient item contributing no record; over items
that cannot raise, the returned list is exactly the concatenation of the
per-item record lists; and with complete metadata each LoadBalancer item
yields exactly one record per truthy-ip ingress entry. -/
theorem list_public_lb_total_one_record_per_ingress :
    (∀ (svc : SvcItem) (acc : List PubSvc), itemDeficient svc →
        processItem svc acc = Except.ok acc) ∧
    (∀ (resp : SvcListResp) (services : ServicesJson),
        resp.rc = 0 → resp.parsed = some services →
        (∀ svc ∈ services.items.getD [], itemSafe svc) →
        list_public_loadbalancers resp =
          Except.ok ((services.items.getD []).flatMap recordsOf)) ∧
    (∀ svc : SvcItem, metaComplete svc →
        (recordsOf svc).length =
          if (svc.spec.getD { type := none }).type = some "LoadBalancer" then
            ((svcIngress svc).filter (fun ing => (truthyIp ing).isSome)).length
          else 0) := by
  refine ⟨?_, ?_, ?_⟩
  · intro svc acc hdef
    unfold processItem
    by_cases hlb : (svc.spec.getD { type := none }).type = some "LoadBalancer"
    · rw [if_neg (not_not_intro hlb)]
      have hing : (∀ ing ∈ svcIngress svc, truthyIp ing = none) →
          processIngs svc acc (svcIngress svc) = Except.ok acc :=
        fun hn => processIngs_none svc _ hn acc
      rcases hdef with hd | hd | hd | hd | hd | hd
      · exact absurd hlb (by simp [hd])
      · exact absurd hlb hd
      · exact hing (by simp [svcIngress, hd])
      · exact hing (by simp [svcIngress, hd])
      · exact hing (by simp [svcIngress, hd])
      · exact hing hd
    · rw [if_pos hlb]
  · intro resp services hrc hparse hsafe
    unfold list_public_loadbalancers
    rw [if_neg (by simp [hrc]), hparse]
    dsimp only
    rw [processItems_safe _ [] hsafe]
    simp
  · intro svc ⟨m, n, ns, hm, hn, hns⟩
    unfold recordsOf
    by_cases hlb : (svc.spec.getD { type := none }).type = some "LoadBalancer"
    · rw [if_pos hlb, if_pos hlb, length_filterMap_eq_countP,
        List.countP_eq_length_filter]
      congr 1
      apply List.filter_congr
      intro ing _
      unfold entryRecord
      rw [hm]
      cases hti : truthyIp ing <;> simp [hti, hn, hns]
    · rw [if_neg hlb, if_neg hlb]
      simp

/-- Witness for C10 at concrete items and a concrete listing. -/
theorem list_public_lb_total_one_record_per_ingress_witness :
    processItem statuslessItem [adminRec] = Except.ok [adminRec] ∧
    list_public_loadbalancers adminSvcResp =
      Except.ok ([adminSvcItem].flatMap recordsOf) ∧
    (recordsOf adminSvcItem).length =
      (if (adminSvcItem.spec.getD { type := none }).type = some "LoadBalancer"
        then ((svcIngress adminSvcItem).filter
          (fun ing => (truthyIp ing).isSome)).length
        else 0) :=
  ⟨list_public_lb_total_one_record_per_ingress.1 statuslessItem [adminRec]
      (Or.inr (Or.inr (Or.inl rfl))),
    list_public_lb_total_one_record_per_ingress.2.1 adminSvcResp
      { items := some [adminSvcItem] } rfl rfl
      (by
        intro svc hsvc _
        have hone : svc = adminSvcItem := by simpa using hsvc
        subst hone
        exact Or.inr ⟨_, _, _, rfl, rfl, rfl⟩),
    list_public_lb_total_one_record_per_ingress.2.2 adminSvcItem
      ⟨_, _, _, rfl, rfl, rfl⟩⟩
